import Mathlib

/-!
Verification of the hinow orchestration core: a shallow embedding of the
tool-call executor (`execute-tool-calls`), the orchestrator's operation
validation (`orchestrate-changes`) and the fragment assembler (`GameSandbox`)
from the TypeScript sources, together with theorems settling the spec claims.

Strings are modelled as Lean `String`s; the JavaScript `split('\n')` /
`join('\n')` pair and the regular-expression scans of the source are embedded
as executable character-list functions.  Scanners that skip past a match use
an explicit fuel argument (always instantiated with the length of the input)
so that every definition reduces in the kernel.
-/

namespace Hinow

/-! ### JavaScript `split('\n')` and `join('\n')` -/

/-- Attach a character to the front of the first piece (used by `splitNLCh`). -/
def consHead (c : Char) : List (List Char) → List (List Char)
  | [] => [[c]]
  | p :: ps => (c :: p) :: ps

/-- JavaScript `s.split('\n')` on a character list: always at least one piece. -/
def splitNLCh : List Char → List (List Char)
  | [] => [[]]
  | c :: cs => if c = '\n' then [] :: splitNLCh cs else consHead c (splitNLCh cs)

/-- JavaScript `pieces.join('\n')` on character lists. -/
def joinNLCh : List (List Char) → List Char
  | [] => []
  | [p] => p
  | p :: q :: ps => p ++ '\n' :: joinNLCh (q :: ps)

theorem splitNLCh_ne_nil (l : List Char) : splitNLCh l ≠ [] := by
  induction l with
  | nil => simp [splitNLCh]
  | cons c cs ih =>
    simp only [splitNLCh]
    split
    · simp
    · cases h : splitNLCh cs with
      | nil => exact absurd h ih
      | cons p ps => simp [consHead]

theorem not_mem_splitNLCh (l : List Char) : ∀ p ∈ splitNLCh l, '\n' ∉ p := by
  induction l with
  | nil =>
    intro p hp
    simp [splitNLCh] at hp
    simp [hp]
  | cons c cs ih =>
    intro p hp
    by_cases hc : c = '\n'
    · simp only [splitNLCh, if_pos hc] at hp
      rcases List.mem_cons.mp hp with h1 | h2
      · simp [h1]
      · exact ih p h2
    · simp only [splitNLCh, if_neg hc] at hp
      cases hsp : splitNLCh cs with
      | nil => exact absurd hsp (splitNLCh_ne_nil cs)
      | cons q qs =>
        rw [hsp] at hp
        simp only [consHead] at hp
        rcases List.mem_cons.mp hp with h1 | h2
        · subst h1
          intro hm
          rcases List.mem_cons.mp hm with h | h
          · exact hc h.symm
          · exact ih q (by rw [hsp]; exact List.mem_cons_self q qs) h
        · exact ih p (by rw [hsp]; exact List.mem_cons_of_mem q h2)

theorem splitNLCh_of_not_mem (l : List Char) (h : '\n' ∉ l) : splitNLCh l = [l] := by
  induction l with
  | nil => rfl
  | cons c cs ih =>
    simp only [List.mem_cons, not_or] at h
    have hc : c ≠ '\n' := fun hh => h.1 hh.symm
    simp [splitNLCh, hc, ih h.2, consHead]

theorem splitNLCh_append (p r : List Char) (h : '\n' ∉ p) :
    splitNLCh (p ++ '\n' :: r) = p :: splitNLCh r := by
  induction p with
  | nil => simp [splitNLCh]
  | cons c cs ih =>
    simp only [List.mem_cons, not_or] at h
    have hc : c ≠ '\n' := fun hh => h.1 hh.symm
    have hrec := ih h.2
    simp only [List.cons_append, splitNLCh, if_neg hc, List.append_eq, hrec, consHead]

theorem splitNLCh_joinNLCh (L : List (List Char)) (hne : L ≠ [])
    (h : ∀ p ∈ L, '\n' ∉ p) : splitNLCh (joinNLCh L) = L := by
  induction L with
  | nil => exact absurd rfl hne
  | cons p ps ih =>
    cases ps with
    | nil => exact splitNLCh_of_not_mem p (h p (List.mem_cons_self p []))
    | cons q qs =>
      have hj : joinNLCh (p :: q :: qs) = p ++ '\n' :: joinNLCh (q :: qs) := rfl
      rw [hj, splitNLCh_append p _ (h p (List.mem_cons_self p (q :: qs)))]
      rw [ih (by simp) (fun x hx => h x (List.mem_cons_of_mem p hx))]

/-- The line list of a string, as computed by JavaScript `s.split('\n')`. -/
def linesOfS (s : String) : List String := (splitNLCh s.data).map String.mk

/-- JavaScript `lines.join('\n')`. -/
def joinNLS (L : List String) : String := String.mk (joinNLCh (L.map String.data))

theorem not_mem_linesOfS (s : String) : ∀ p ∈ linesOfS s, '\n' ∉ p.data := by
  intro p hp
  rcases List.mem_map.mp hp with ⟨l, hl, rfl⟩
  exact not_mem_splitNLCh s.data l hl

theorem linesOfS_ne_nil (s : String) : linesOfS s ≠ [] := by
  unfold linesOfS
  intro h
  exact splitNLCh_ne_nil s.data (List.map_eq_nil_iff.mp h)

theorem linesOfS_joinNLS (L : List String) (hne : L ≠ [])
    (h : ∀ p ∈ L, '\n' ∉ p.data) : linesOfS (joinNLS L) = L := by
  unfold linesOfS joinNLS
  have hdata : (String.mk (joinNLCh (L.map String.data))).data = joinNLCh (L.map String.data) := rfl
  rw [hdata]
  rw [splitNLCh_joinNLCh _ (by simpa using hne)
    (by
      intro p hp
      rcases List.mem_map.mp hp with ⟨t, ht, rfl⟩
      exact h t ht)]
  rw [List.map_map]
  have : (String.mk ∘ String.data) = id := by
    funext t
    rfl
  rw [this, List.map_id]

/-! ### `replaceLines` (execute-tool-calls helper) -/

/-- The `replaceLines` helper of `execute-tool-calls/index.ts`: split the code
into 1-indexed lines, reject out-of-range bounds with an error message and the
code unchanged, otherwise splice the new content's lines over the inclusive
range. -/
def replaceLines (code : String) (s e : Int) (newContent : String) : String × Option String :=
  let lines := linesOfS code
  let totalLines : Int := lines.length
  if s < 1 ∨ e < 1 then
    (code, some ("Invalid line numbers: start=" ++ toString s ++ ", end=" ++ toString e ++
      ". Line numbers must be >= 1."))
  else if s > totalLines ∨ e > totalLines then
    (code, some ("Line numbers out of range: start=" ++ toString s ++ ", end=" ++ toString e ++
      ", but file only has " ++ toString totalLines ++ " lines."))
  else if s > e then
    (code, some ("Invalid range: start (" ++ toString s ++ ") is greater than end (" ++
      toString e ++ ")."))
  else
    let newLines := linesOfS newContent
    (joinNLS (lines.take (s.toNat - 1) ++ newLines ++ lines.drop e.toNat), none)

/-- C6: for every `ReplaceRange` with `1 ≤ start ≤ end ≤ lineCount`, the
operation succeeds, the resulting line list is exactly the lines before the
range, then the new content's lines, then the lines after the range (so every
line outside `[start, end]` is preserved unchanged and in order), and the
resulting line count equals the original count minus `(end - start + 1)` plus
the number of lines of the new content. -/
theorem replaceLines_in_range (code newContent : String) (s e : Int)
    (h1 : 1 ≤ s) (h2 : s ≤ e) (h3 : e ≤ ((linesOfS code).length : Int)) :
    (replaceLines code s e newContent).2 = none ∧
    linesOfS (replaceLines code s e newContent).1 =
      (linesOfS code).take (s.toNat - 1) ++ linesOfS newContent ++ (linesOfS code).drop e.toNat ∧
    ((linesOfS (replaceLines code s e newContent).1).length : Int) =
      ((linesOfS code).length : Int) - (e - s + 1) + ((linesOfS newContent).length : Int) := by
  have hc1 : ¬ (s < 1 ∨ e < 1) := by omega
  have hc2 : ¬ (s > ((linesOfS code).length : Int) ∨ e > ((linesOfS code).length : Int)) := by
    omega
  have hc3 : ¬ (s > e) := by omega
  have hres : replaceLines code s e newContent =
      (joinNLS ((linesOfS code).take (s.toNat - 1) ++ linesOfS newContent ++
        (linesOfS code).drop e.toNat), none) := by
    unfold replaceLines
    simp only [if_neg hc1, if_neg hc2, if_neg hc3]
  have hround : linesOfS (replaceLines code s e newContent).1 =
      (linesOfS code).take (s.toNat - 1) ++ linesOfS newContent ++
        (linesOfS code).drop e.toNat := by
    rw [hres]
    apply linesOfS_joinNLS
    · intro hempty
      rcases List.append_eq_nil.mp hempty with ⟨hl, _⟩
      rcases List.append_eq_nil.mp hl with ⟨_, hmid⟩
      exact linesOfS_ne_nil newContent hmid
    · intro p hp
      rcases List.mem_append.mp hp with hp1 | hp2
      · rcases List.mem_append.mp hp1 with hp3 | hp4
        · exact not_mem_linesOfS code p (List.take_subset _ _ hp3)
        · exact not_mem_linesOfS newContent p hp4
      · exact not_mem_linesOfS code p (List.drop_subset _ _ hp2)
  refine ⟨by rw [hres], hround, ?_⟩
  rw [hround]
  have hs : ((s.toNat : Int)) = s := Int.toNat_of_nonneg (by omega)
  have he : ((e.toNat : Int)) = e := Int.toNat_of_nonneg (by omega)
  have hsn : 1 ≤ s.toNat := by omega
  have hen : e.toNat ≤ (linesOfS code).length := by omega
  have hse : s.toNat ≤ e.toNat := by omega
  simp only [List.length_append, List.length_take, List.length_drop]
  have hmin : (s.toNat - 1) ⊓ (linesOfS code).length = s.toNat - 1 := by
    apply Nat.min_eq_left
    omega
  rw [hmin]
  push_cast
  omega

/-- Witness for C6 at a concrete input: replacing line 2 of a three-line
fragment with two new lines. -/
theorem replaceLines_in_range_witness :
    (replaceLines "a\nb\nc" 2 2 "X\nY").2 = none ∧
    linesOfS (replaceLines "a\nb\nc" 2 2 "X\nY").1 =
      (linesOfS "a\nb\nc").take ((2 : Int).toNat - 1) ++ linesOfS "X\nY" ++
        (linesOfS "a\nb\nc").drop (2 : Int).toNat ∧
    ((linesOfS (replaceLines "a\nb\nc" 2 2 "X\nY").1).length : Int) =
      ((linesOfS "a\nb\nc").length : Int) - (2 - 2 + 1) + ((linesOfS "X\nY").length : Int) :=
  replaceLines_in_range "a\nb\nc" "X\nY" 2 2 (by decide) (by decide) (by decide)

/-! ### Substring search (JavaScript `includes`) -/

def isInfixOfCh (pat : List Char) : List Char → Bool
  | [] => pat.isEmpty
  | c :: cs => pat.isPrefixOf (c :: cs) || isInfixOfCh pat cs

/-- JavaScript `s.includes(pat)`. -/
def includesS (s pat : String) : Bool := isInfixOfCh pat.data s.data

/-! ### GameSandbox fragment pre-validation (`validateFragment`) -/

/-- `validateFragment` of the fragment-assembling GameSandbox component: a
`FRAGMENT ERROR` diagnostic for each full-document wrapper found in the
structure fragment. -/
def validateFragment (html : String) : List String :=
  (if includesS html "<!DOCTYPE html>" then
    ["FRAGMENT ERROR: html_code should not contain <!DOCTYPE html>"] else []) ++
  (if includesS html "<html" then
    ["FRAGMENT ERROR: html_code should not contain <html> tag"] else []) ++
  (if includesS html "<head>" then
    ["FRAGMENT ERROR: html_code should not contain <head> tag"] else []) ++
  (if includesS html "<body>" then
    ["FRAGMENT ERROR: html_code should not contain <body> tag"] else [])

/-- A structure fragment contains a full-document wrapper: one of the four
markers that `validateFragment` tests for. -/
def containsWrapper (html : String) : Bool :=
  includesS html "<!DOCTYPE html>" || includesS html "<html" ||
  includesS html "<head>" || includesS html "<body>"

/-! ### GameSandbox assembled-document post-validation -/

/-- First occurrence of `pat`: the part before it and the part after it. -/
def splitFirstCh (pat : List Char) : List Char → Option (List Char × List Char)
  | [] => if pat.isEmpty then some ([], []) else none
  | c :: cs =>
    if pat.isPrefixOf (c :: cs) then some ([], (c :: cs).drop pat.length)
    else
      match splitFirstCh pat cs with
      | none => none
      | some (pre, post) => some (c :: pre, post)

/-- The part of `s` before the last occurrence of `pat` (none if `pat` does
not occur). -/
def lastSplitBefore (pat s : List Char) : Option (List Char) :=
  match splitFirstCh pat.reverse s.reverse with
  | none => none
  | some (_, revPre) => some revPre.reverse

/-- The capture of `/<body>([\s\S]*)<\/body>/`: from the first `<body>` to the
last `</body>` after it. -/
def bodyContent (s : List Char) : Option (List Char) :=
  match splitFirstCh "<body>".data s with
  | none => none
  | some (_, afterOpen) =>
    match lastSplitBefore "</body>".data afterOpen with
    | none => none
    | some content => some content

/-- Number of matches of the literal `pat` (JavaScript `match(...).length` with
the `g` flag): leftmost, non-overlapping.  The fuel is the input length. -/
def countLitF (pat : List Char) : Nat → List Char → Nat
  | 0, _ => 0
  | _ + 1, [] => 0
  | fuel + 1, c :: cs =>
    if pat.isPrefixOf (c :: cs) then 1 + countLitF pat fuel ((c :: cs).drop pat.length)
    else countLitF pat fuel cs

/-- Number of matches of `lit` followed by `[^>]*` and `>` (patterns such as
`/<div[^>]*>/g`): the match runs to the first `>` after the literal. -/
def countLitTagOpenF (lit : List Char) : Nat → List Char → Nat
  | 0, _ => 0
  | _ + 1, [] => 0
  | fuel + 1, c :: cs =>
    if lit.isPrefixOf (c :: cs) then
      let r := (c :: cs).drop lit.length
      let run := r.takeWhile (fun x => x ≠ '>')
      if run.length < r.length then 1 + countLitTagOpenF lit fuel (r.drop (run.length + 1))
      else countLitTagOpenF lit fuel cs
    else countLitTagOpenF lit fuel cs

/-- `validateAssembledHTML` of the fragment-assembling GameSandbox component:
div open/close balance, and at most one script block inside `<body>…</body>`. -/
def validateAssembledHTML (html : String) : List String :=
  let divOpen := countLitTagOpenF "<div".data html.data.length html.data
  let divClose := countLitF "</div>".data html.data.length html.data
  (if divOpen ≠ divClose then
    ["ASSEMBLED HTML: Unclosed div tags (" ++ toString divOpen ++ " open, " ++
      toString divClose ++ " close)"]
   else []) ++
  (match bodyContent html.data with
   | none => []
   | some bc =>
     if 1 < countLitTagOpenF "<script".data bc.length bc then
       ["ASSEMBLED HTML: Multiple script tags detected in body"]
     else [])

/-- The assembled document template of the GameSandbox component: baseline
style resets, the style fragment in the head, the structure fragment as body
content, the error-capturing instrumentation block, then the behavior
fragment.  (Braces of the embedded JavaScript are written as hex escapes.) -/
def assembleDoc (htmlCode cssCode jsCode : String) : String :=
  "<!DOCTYPE html>\n<html>\n<head>\n  <meta charset=\"UTF-8\">\n  <meta name=\"viewport\" content=\"width=device-width, initial-scale=1.0\">\n  <style>\n    body \x7b margin: 0; padding: 0; overflow: hidden; \x7d\n    " ++
  cssCode ++
  "\n  </style>\n</head>\n<body>\n  " ++
  htmlCode ++
  "\n  <script>\n    // Error capturing - JavaScript Runtime\n    window.onerror = function(message, source, lineno, colno, error) \x7b\n      window.parent.postMessage(\x7b\n        type: 'game_error',\n        error: 'JS RUNTIME: ' + message + ' at ' + source + ':' + lineno + ':' + colno\n      \x7d, '*');\n      return true;\n    \x7d;\n\n    window.addEventListener('unhandledrejection', function(event) \x7b\n      window.parent.postMessage(\x7b\n        type: 'game_error',\n        error: 'JS PROMISE: Unhandled Promise Rejection: ' + event.reason\n      \x7d, '*');\n    \x7d);\n\n    // DOM Validation - Check if expected elements exist\n    window.addEventListener('DOMContentLoaded', function() \x7b\n      const expectedElements = document.querySelectorAll('[id]');\n      if (expectedElements.length === 0) \x7b\n        window.parent.postMessage(\x7b\n          type: 'game_error',\n          error: 'DOM VALIDATION: No elements with IDs found - possible HTML corruption'\n        \x7d, '*');\n      \x7d\n      \n      // Check for orphaned script/style tags in body\n      const bodyScripts = document.body.querySelectorAll('script');\n      const bodyStyles = document.body.querySelectorAll('style');\n      if (bodyScripts.length > 1) \x7b\n        window.parent.postMessage(\x7b\n          type: 'game_error',\n          error: 'DOM WARNING: Multiple script tags in body detected'\n        \x7d, '*');\n      \x7d\n      if (bodyStyles.length > 0) \x7b\n        window.parent.postMessage(\x7b\n          type: 'game_error',\n          error: 'DOM WARNING: Style tags found in body instead of head'\n        \x7d, '*');\n      \x7d\n    \x7d);\n\n    // Game code\n    " ++
  jsCode ++
  "\n  </script>\n</body>\n</html>"

/-- `constructedHtml` of the fragment-assembling GameSandbox component: empty
structure fragment short-circuits to the empty document with no validation;
otherwise the document is assembled and the fragment diagnostics are followed
by the assembled-document diagnostics. -/
def constructedHtml (htmlCode cssCode jsCode : String) : String × List String :=
  if htmlCode = "" then ("", [])
  else
    let fragmentErrors := validateFragment htmlCode
    let assembled := assembleDoc htmlCode cssCode jsCode
    let assembledErrors := validateAssembledHTML assembled
    (assembled, fragmentErrors ++ assembledErrors)

/-- C8: the assembler's pre-validation reports at least one diagnostic for
every structure fragment containing a full-document wrapper (doctype,
`<html>`, `<head>` or `<body>`), and reports no diagnostic at all for a
fragment free of such wrappers. -/
theorem validateFragment_wrapper_diagnostics (frag : String) :
    (containsWrapper frag = true → 1 ≤ (validateFragment frag).length) ∧
    (containsWrapper frag = false → validateFragment frag = []) := by
  unfold containsWrapper validateFragment
  by_cases h1 : includesS frag "<!DOCTYPE html>" = true <;>
    by_cases h2 : includesS frag "<html" = true <;>
      by_cases h3 : includesS frag "<head>" = true <;>
        by_cases h4 : includesS frag "<body>" = true <;>
          simp [h1, h2, h3, h4]

/-- Witness for C8: a concrete wrapper-bearing fragment gets a diagnostic and
a concrete clean fragment gets none. -/
theorem validateFragment_wrapper_diagnostics_witness :
    1 ≤ (validateFragment "<body><div id=\"game\"></div></body>").length ∧
    validateFragment "<canvas id=\"gameCanvas\"></canvas>" = [] :=
  ⟨(validateFragment_wrapper_diagnostics "<body><div id=\"game\"></div></body>").1 rfl,
   (validateFragment_wrapper_diagnostics "<canvas id=\"gameCanvas\"></canvas>").2 rfl⟩

/-- C10: when the structure fragment is empty the assembler produces the empty
string and no diagnostics, whatever the style and behavior fragments hold: no
baseline styles, no instrumentation, no validation output. -/
theorem constructedHtml_empty_structure (cssCode jsCode : String) :
    constructedHtml "" cssCode jsCode = ("", []) := rfl

/-! ### Case folding (JavaScript `toLowerCase`, ASCII range) -/

def lowerChar (c : Char) : Char :=
  if 'A' ≤ c ∧ c ≤ 'Z' then Char.ofNat (c.toNat + 32) else c

def toLowerS (s : String) : String := String.mk (s.data.map lowerChar)

def isLowerAlpha (c : Char) : Bool := 'a' ≤ c && c ≤ 'z'

def isDigitCh (c : Char) : Bool := '0' ≤ c && c ≤ '9'

def isAlnumLower (c : Char) : Bool := isLowerAlpha c || isDigitCh c

/-! ### Executor `validateHTML` -/

/-- Matches of `/<(?!\/|!)[a-z][a-z0-9]*[^>]*>/gi` on a lowercased input: a
`<`, a letter, then everything to the first `>`. -/
def countOpenTagsF : Nat → List Char → Nat
  | 0, _ => 0
  | _ + 1, [] => 0
  | fuel + 1, c :: cs =>
    if c = '<' then
      match cs with
      | [] => 0
      | d :: ds =>
        if isLowerAlpha d then
          let run := ds.takeWhile (fun x => x ≠ '>')
          if run.length < ds.length then 1 + countOpenTagsF fuel (ds.drop (run.length + 1))
          else countOpenTagsF fuel cs
        else countOpenTagsF fuel cs
    else countOpenTagsF fuel cs

/-- Matches of `/<\/[a-z][a-z0-9]*>/gi` on a lowercased input: a strict
`</name>` with no attributes or spaces. -/
def countCloseTagsF : Nat → List Char → Nat
  | 0, _ => 0
  | _ + 1, [] => 0
  | fuel + 1, c :: cs =>
    if c = '<' then
      match cs with
      | '/' :: d :: ds =>
        if isLowerAlpha d then
          let run := ds.takeWhile isAlnumLower
          match ds.drop run.length with
          | '>' :: rest => 1 + countCloseTagsF fuel rest
          | _ => countCloseTagsF fuel cs
        else countCloseTagsF fuel cs
      | _ => countCloseTagsF fuel cs
    else countCloseTagsF fuel cs

/-- Matches of `/<[a-z][a-z0-9]*[^>]*\/>/gi` on a lowercased input: a `<`, a
letter, and a first `>` that is immediately preceded by `/`. -/
def countSelfClosingF : Nat → List Char → Nat
  | 0, _ => 0
  | _ + 1, [] => 0
  | fuel + 1, c :: cs =>
    if c = '<' then
      match cs with
      | [] => 0
      | d :: ds =>
        if isLowerAlpha d then
          let run := ds.takeWhile (fun x => x ≠ '>')
          if run.length < ds.length ∧ run ≠ [] ∧ run.getLastD ' ' = '/' then
            1 + countSelfClosingF fuel (ds.drop (run.length + 1))
          else countSelfClosingF fuel cs
        else countSelfClosingF fuel cs
    else countSelfClosingF fuel cs

/-- The four wrapper-presence diagnostics of the executor's `validateHTML`. -/
def wrapperErrors (html : String) : List String :=
  (if includesS html "<!DOCTYPE html>" then [] else ["Missing DOCTYPE declaration"]) ++
  (if includesS html "<html" then [] else ["Missing <html> tag"]) ++
  (if includesS html "<head>" then [] else ["Missing <head> tag"]) ++
  (if includesS html "<body>" then [] else ["Missing <body> tag"])

/-- The tag-balance diagnostic of the executor's `validateHTML`:
`openTags - selfClosingTags` must equal `closeTags`. -/
def balanceErrors (html : String) : List String :=
  let l := (toLowerS html).data
  let openTags : Int := countOpenTagsF l.length l
  let closeTags : Int := countCloseTagsF l.length l
  let selfClosingTags : Int := countSelfClosingF l.length l
  if openTags - selfClosingTags ≠ closeTags then
    ["Possible unclosed tags: " ++ toString (openTags - selfClosingTags) ++
      " open tags vs " ++ toString closeTags ++ " close tags"]
  else []

/-- `validateHTML` of `execute-tool-calls/index.ts`: wrapper-presence checks
followed by the tag-balance check; valid iff no error. -/
def validateHTML (html : String) : Bool × List String :=
  let errors := wrapperErrors html ++ balanceErrors html
  (errors.isEmpty, errors)

/-! ### File-path mapping -/

/-- `mapFilePath` of the executor: lenient mapping of file-path synonyms to
`html` / `css` / `js`; anything else is passed through lowercased. -/
def mapFilePath (p : String) : String :=
  if p = "" then p
  else
    let lp := toLowerS p
    if lp = "html" ∨ lp = "html_code" ∨ lp = "index.html" then "html"
    else if lp = "css" ∨ lp = "css_code" ∨ lp = "style.css" then "css"
    else if lp = "js" ∨ lp = "js_code" ∨ lp = "script.js" ∨ lp = "game.js" then "js"
    else lp

/-- `normalizeFilePath` of `orchestrate-changes/index.ts`: the orchestrator's
lenient mapping to `html_code` / `css_code` / `js_code`. -/
def normalizeFilePath (path : String) : String :=
  if path = "" then path
  else
    let lp := toLowerS path
    if lp = "html" ∨ lp = "html_code" ∨ lp = "index.html" then "html_code"
    else if lp = "css" ∨ lp = "css_code" ∨ lp = "style.css" ∨ lp = "styles.css" then "css_code"
    else if lp = "js" ∨ lp = "js_code" ∨ lp = "script.js" ∨ lp = "game.js" ∨ lp = "main.js" then
      "js_code"
    else lp

/-! ### External-reference scanners (the executor's `externalRefs` regexes) -/

def isQuoteCh (c : Char) : Bool := c = '\'' || c = '"'

def isSpaceJS (c : Char) : Bool :=
  c = ' ' || c = '\t' || c = '\n' || c = '\r' || c = '\x0b' || c = '\x0c'

def stripPrefixCh (pat l : List Char) : Option (List Char) :=
  if pat.isPrefixOf l then some (l.drop pat.length) else none

/-- After an opening quote: the maximal run of non-quote characters, provided a
closing quote follows it. -/
def quotedRun (rest : List Char) : Option (List Char) :=
  let run := rest.takeWhile (fun c => !(isQuoteCh c))
  if run.length < rest.length then some run else none

def startsWithHttp (run : List Char) : Bool :=
  "http://".data.isPrefixOf run || "https://".data.isPrefixOf run

/-- `/<script\s+src=["'](?!https?:\/\/)[^"']+\.js["']/i` at this position. -/
def matchScriptHere (l : List Char) : Bool :=
  match stripPrefixCh "<script".data l with
  | none => false
  | some r1 =>
    let ws := r1.takeWhile isSpaceJS
    if ws.isEmpty then false
    else
      match stripPrefixCh "src=".data (r1.drop ws.length) with
      | none => false
      | some r3 =>
        match r3 with
        | [] => false
        | q :: rest =>
          if isQuoteCh q then
            match quotedRun rest with
            | none => false
            | some run =>
              decide (4 ≤ run.length) && ".js".data.isSuffixOf run && !(startsWithHttp run)
          else false

def scanScriptRef : List Char → Bool
  | [] => false
  | c :: cs => matchScriptHere (c :: cs) || scanScriptRef cs

/-- The `["'](?!https?:\/\/)[^"']+\.css["']` tail of the link regex. -/
def cssRunOk (r3 : List Char) : Bool :=
  match r3 with
  | [] => false
  | q :: rest =>
    if isQuoteCh q then
      match quotedRun rest with
      | none => false
      | some run =>
        decide (5 ≤ run.length) && ".css".data.isSuffixOf run && !(startsWithHttp run)
    else false

/-- The `[^>]*href=` part of the link regex: try `href=` at every offset up to
the first `>`. -/
def scanHrefBeforeGt : List Char → Bool
  | [] => false
  | c :: cs =>
    (if "href=".data.isPrefixOf (c :: cs) then cssRunOk ((c :: cs).drop 5) else false) ||
    (if c = '>' then false else scanHrefBeforeGt cs)

/-- `/<link\s+[^>]*href=["'](?!https?:\/\/)[^"']+\.css["']/i` at this position. -/
def matchLinkHere (l : List Char) : Bool :=
  match stripPrefixCh "<link".data l with
  | none => false
  | some r1 =>
    let ws := r1.takeWhile isSpaceJS
    if ws.isEmpty then false else scanHrefBeforeGt (r1.drop ws.length)

def scanLinkRef : List Char → Bool
  | [] => false
  | c :: cs => matchLinkHere (c :: cs) || scanLinkRef cs

def imgExtOk (run : List Char) : Bool :=
  (".png".data.isSuffixOf run && decide (5 ≤ run.length)) ||
  (".jpg".data.isSuffixOf run && decide (5 ≤ run.length)) ||
  (".jpeg".data.isSuffixOf run && decide (6 ≤ run.length)) ||
  (".gif".data.isSuffixOf run && decide (5 ≤ run.length)) ||
  (".svg".data.isSuffixOf run && decide (5 ≤ run.length))

/-- The `["'](?!https?:\/\/|data:)[^"']+\.(png|jpg|jpeg|gif|svg)["']` tail of
the img regex. -/
def imgRunOk (r3 : List Char) : Bool :=
  match r3 with
  | [] => false
  | q :: rest =>
    if isQuoteCh q then
      match quotedRun rest with
      | none => false
      | some run =>
        imgExtOk run && !(startsWithHttp run) && !("data:".data.isPrefixOf run)
    else false

/-- The `[^>]*src=` part of the img regex. -/
def scanSrcBeforeGt : List Char → Bool
  | [] => false
  | c :: cs =>
    (if "src=".data.isPrefixOf (c :: cs) then imgRunOk ((c :: cs).drop 4) else false) ||
    (if c = '>' then false else scanSrcBeforeGt cs)

/-- `/<img\s+[^>]*src=…/i` at this position. -/
def matchImgHere (l : List Char) : Bool :=
  match stripPrefixCh "<img".data l with
  | none => false
  | some r1 =>
    let ws := r1.takeWhile isSpaceJS
    if ws.isEmpty then false else scanSrcBeforeGt (r1.drop ws.length)

def scanImgRef : List Char → Bool
  | [] => false
  | c :: cs => matchImgHere (c :: cs) || scanImgRef cs

def hasExternalScriptRef (content : String) : Bool := scanScriptRef (toLowerS content).data

def hasExternalCssRef (content : String) : Bool := scanLinkRef (toLowerS content).data

def hasExternalImgRef (content : String) : Bool := scanImgRef (toLowerS content).data

/-- The executor's external-reference check on a structure-fragment write:
non-network script, stylesheet or image file references. -/
def hasExternalRefs (content : String) : Bool :=
  hasExternalScriptRef content || hasExternalCssRef content || hasExternalImgRef content

/-- The error thrown for an external reference, naming the first matching
category in the source's order.  (The source also interpolates the first regex
match as an example; the thrown error aborts the batch before the message is
stored anywhere, so no claim observes it.) -/
def externalRefErrorMsg (content : String) : String :=
  let ty := if hasExternalScriptRef content then "script files"
    else if hasExternalCssRef content then "CSS files"
    else "image files"
  "HTML contains references to external " ++ ty ++
    ". All code must be inline. Use <style> tags for CSS, inline <script> tags for JS, and data URLs or generate_image for images."

/-! ### Placeholder substitution (STAGE 2 of the executor) -/

/-- Replace every occurrence of the literal pattern `p0 :: prest` with `rep`:
leftmost, non-overlapping, the replacement not rescanned (JavaScript
`replace` with the `g` flag).  The fuel is the input length. -/
def replLitF (p0 : Char) (prest rep : List Char) : Nat → List Char → List Char
  | 0, s => s
  | _ + 1, [] => []
  | fuel + 1, c :: cs =>
    if c = p0 ∧ prest.isPrefixOf cs then rep ++ replLitF p0 prest rep fuel (cs.drop prest.length)
    else c :: replLitF p0 prest rep fuel cs

/-- JavaScript `s.replace(pat, rep)` with the `g` flag for a literal pattern. -/
def replaceLit (pat rep s : String) : String :=
  match pat.data with
  | [] => s
  | p0 :: prest => String.mk (replLitF p0 prest rep.data s.data.length s.data)

/-- One pass of `(['"])mid\1` with the `g` flag: a quote, `mid`, then the same
quote again (the back-reference). -/
def replQuotF (mid rep : List Char) : Nat → List Char → List Char
  | 0, s => s
  | _ + 1, [] => []
  | fuel + 1, c :: cs =>
    if isQuoteCh c ∧ (mid ++ [c]).isPrefixOf cs then
      rep ++ replQuotF mid rep fuel (cs.drop (mid.length + 1))
    else c :: replQuotF mid rep fuel cs

def replaceQuoted (mid rep s : String) : String :=
  String.mk (replQuotF mid.data rep.data s.data.length s.data)

/-- Whether the literal pattern `p0 :: prest` occurs anywhere. -/
def hasLitMatch (p0 : Char) (prest : List Char) : List Char → Bool
  | [] => false
  | c :: cs => ((c == p0) && prest.isPrefixOf cs) || hasLitMatch p0 prest cs

/-- Whether `(['"])mid\1` matches anywhere. -/
def hasQuotedMatch (mid : List Char) : List Char → Bool
  | [] => false
  | c :: cs => (isQuoteCh c && (mid ++ [c]).isPrefixOf cs) || hasQuotedMatch mid cs

/-- The three replacement patterns of STAGE 2 in the source's order —
`{{name}}`, a quoted `name.png`, a quoted `name` — applied to one fragment
with one replacement string. -/
def substPasses (name rep frag : String) : String :=
  replaceQuoted name rep
    (replaceQuoted (name ++ ".png") rep
      (replaceLit ("\x7b\x7b" ++ name ++ "\x7d\x7d") rep frag))

/-- STAGE 2 of the executor, for one generated asset and one fragment: each
placeholder occurrence rewritten to `url('<url>')` in a style fragment and to
a quoted URL otherwise. -/
def substituteAsset (name url frag : String) (isCss : Bool) : String :=
  substPasses name (if isCss then "url('" ++ url ++ "')" else "'" ++ url ++ "'") frag

/-! ### The executor's data model -/

structure ToolParams where
  file_path : String := ""
  start_line : Option Int := none
  end_line : Option Int := none
  content : Option String := none
  name : String := ""
  prompt : String := ""
deriving DecidableEq

structure ToolCall where
  tool_name : String := ""
  parameters : Option ToolParams := none
deriving DecidableEq

/-- The persisted session fields the executor reads and writes. -/
structure SessionState where
  html_code : String := ""
  css_code : String := ""
  js_code : String := ""
  asset_urls : List String := []
  chat_history : List (String × String) := []
  status : String := ""
deriving DecidableEq

/-- JavaScript `Map.set`: overwrite in place or append at the end. -/
def setEntry : List (String × String) → String → String → List (String × String)
  | [], k, v => [(k, v)]
  | (k', v') :: rest, k, v => if k' = k then (k, v) :: rest else (k', v') :: setEntry rest k v

/-- STAGE 1 of the executor: one `generate_image` call.  Missing name or
prompt is skipped with a summary line; a generation failure is recorded and
processing continues; success stores the URL in the asset list (deduplicated)
and in the name→URL map. -/
def processImageCall (gen : String → String → Except String String)
    (acc : SessionState × List (String × String) × List String) (call : ToolCall) :
    SessionState × List (String × String) × List String :=
  let (st, urlMap, summary) := acc
  let ps := call.parameters.getD {}
  if ps.name = "" ∨ ps.prompt = "" then
    (st, urlMap, summary ++ ["Skipped an image generation call due to missing parameters"])
  else
    match gen ps.name ps.prompt with
    | .ok url =>
      let assets := if st.asset_urls.contains url then st.asset_urls else st.asset_urls ++ [url]
      ({ st with asset_urls := assets }, setEntry urlMap ps.name url,
        summary ++ ["Generated image '" ++ ps.name ++ "' at " ++ url])
    | .error msg =>
      (st, urlMap, summary ++ ["Failed to generate image '" ++ ps.name ++ "': " ++ msg])

/-- STAGE 2 of the executor applied to the three stored fragments for one
asset (the source guards each assignment behind the fragment's truthiness). -/
def applyAsset (name url : String) (st : SessionState) : SessionState :=
  { st with
    html_code := if st.html_code = "" then st.html_code
      else substituteAsset name url st.html_code false,
    css_code := if st.css_code = "" then st.css_code
      else substituteAsset name url st.css_code true,
    js_code := if st.js_code = "" then st.js_code
      else substituteAsset name url st.js_code false }

def stage2Subst (urlMap : List (String × String)) (st : SessionState) : SessionState :=
  urlMap.foldl (fun s nu => applyAsset nu.1 nu.2 s) st

/-- JavaScript `list.join(', ')`. -/
def joinCommaSp : List String → String
  | [] => ""
  | [x] => x
  | x :: y :: rest => x ++ ", " ++ joinCommaSp (y :: rest)

/-- STAGE 3 of the executor: one code-modification call against the working
state and summary.  A thrown error (external file reference) is the only
fatal outcome; every other failure records a summary line and continues. -/
def processCodeCall (backupHtml : String) (acc : SessionState × List String)
    (call : ToolCall) : Except String (SessionState × List String) :=
  let (st, summary) := acc
  let ps := call.parameters.getD {}
  if call.tool_name = "write_file" then
    if ps.file_path = "" ∨ ps.content = none ∨ ps.content = some "" then
      .ok (st, summary ++ ["Skipped write_file: missing file_path or content"])
    else
      let content := ps.content.getD ""
      let fp := mapFilePath ps.file_path
      if fp = "html" ∧ hasExternalRefs content then .error (externalRefErrorMsg content)
      else
        .ok ({ st with
            html_code := if fp = "html" then content else st.html_code,
            css_code := if fp = "css" then content else st.css_code,
            js_code := if fp = "js" then content else st.js_code },
          summary ++ ["Wrote content to " ++ fp ++ "."])
  else if call.tool_name = "replace_lines" then
    if ps.file_path = "" ∨ ps.start_line = none ∨ ps.end_line = none ∨ ps.content = none then
      .ok (st, summary ++ ["Skipped replace_lines: missing required parameters"])
    else
      let s := ps.start_line.getD 0
      let e := ps.end_line.getD 0
      let content := ps.content.getD ""
      let fp := mapFilePath ps.file_path
      if fp = "html" ∧ st.html_code ≠ "" then
        match replaceLines st.html_code s e content with
        | (_, some err) =>
          .ok (st, summary ++ ["ERROR replacing lines in " ++ fp ++ ": " ++ err])
        | (newHtml, none) =>
          let v := validateHTML newHtml
          if v.1 = false then
            .ok ({ st with html_code := backupHtml },
              summary ++
                ["WARNING: HTML validation failed after line replacement: " ++ joinCommaSp v.2,
                 "Rolled back HTML to previous version due to validation failure"])
          else
            .ok ({ st with html_code := newHtml },
              summary ++
                ["Replaced lines " ++ toString s ++ "-" ++ toString e ++ " in " ++ fp ++ "."])
      else if fp = "css" ∧ st.css_code ≠ "" then
        match replaceLines st.css_code s e content with
        | (_, some err) =>
          .ok (st, summary ++ ["ERROR replacing lines in " ++ fp ++ ": " ++ err])
        | (newCss, none) =>
          .ok ({ st with css_code := newCss },
            summary ++
              ["Replaced lines " ++ toString s ++ "-" ++ toString e ++ " in " ++ fp ++ "."])
      else if fp = "js" ∧ st.js_code ≠ "" then
        match replaceLines st.js_code s e content with
        | (_, some err) =>
          .ok (st, summary ++ ["ERROR replacing lines in " ++ fp ++ ": " ++ err])
        | (newJs, none) =>
          .ok ({ st with js_code := newJs },
            summary ++
              ["Replaced lines " ++ toString s ++ "-" ++ toString e ++ " in " ++ fp ++ "."])
      else
        .ok (st, summary ++
          ["Replaced lines " ++ toString s ++ "-" ++ toString e ++ " in " ++ fp ++ "."])
  else
    .ok (st, summary ++ ["Skipped unknown tool: " ++ call.tool_name])

def defaultChatMsg : String := "I've updated your game with the requested changes."

/-- The executor pipeline after the session fetch, on the already-separated
image- and code-call sublists.  `gen` is the image-generation collaborator,
`summ` the change-summary collaborator (`none` = keep the default message;
neither failure is ever fatal). -/
def runExecutorOn (gen : String → String → Except String String)
    (summ : List String → Option String) (st : SessionState)
    (imageCalls codeCalls : List ToolCall) : Except String (SessionState × List String) :=
  let backupHtml := st.html_code
  let (st1, urlMap, sum1) := imageCalls.foldl (fun a c => processImageCall gen a c) (st, [], [])
  let (st2, sum2) :=
    if 0 < urlMap.length then
      (stage2Subst urlMap st1,
        sum1 ++ ["Replaced " ++ toString urlMap.length ++
          " image placeholders in code with generated URLs."])
    else (st1, sum1)
  match codeCalls.foldlM (fun a c => processCodeCall backupHtml a c) (st2, sum2) with
  | .error e => .error e
  | .ok (st3, sum3) =>
    let chatResponse := (summ sum3).getD defaultChatMsg
    .ok ({ st3 with
        chat_history := st3.chat_history ++ [("assistant", chatResponse)],
        status := "coding_complete" }, sum3)

/-- The executor on a full tool-call batch (`execute-tool-calls/index.ts`):
the `generate_image` calls are filtered out and processed first, placeholder
substitution runs on the results, then the remaining calls run in order. -/
def runExecutor (gen : String → String → Except String String)
    (summ : List String → Option String) (st : SessionState)
    (toolCalls : List ToolCall) : Except String (SessionState × List String) :=
  runExecutorOn gen summ st
    (toolCalls.filter (fun c => c.tool_name == "generate_image"))
    (toolCalls.filter (fun c => !(c.tool_name == "generate_image")))

/-- The stored session after a run: the source commits fragments, assets,
history and status in one update only on success; a thrown error reaches the
catch block before the update and nothing is written. -/
def storedAfter (st : SessionState) (r : Except String (SessionState × List String)) :
    SessionState :=
  match r with
  | .ok (s, _) => s
  | .error _ => st

/-! ### The orchestrator's operation validation -/

/-- Validation of one operation at index `i` in the orchestrator's loop
(`orchestrate-changes/index.ts`). -/
def validateOpAt (i : Nat) (op : ToolCall) : Except String ToolCall :=
  if op.tool_name = "" ∨ op.parameters = none then
    .error ("Operation " ++ toString i ++ " is missing \"tool_name\" or \"parameters\" field")
  else
    let ps := op.parameters.getD {}
    if (op.tool_name = "write_file" ∨ op.tool_name = "replace_lines") ∧ ps.file_path ≠ "" then
      let normalized := normalizeFilePath ps.file_path
      if normalized = "html_code" ∨ normalized = "css_code" ∨ normalized = "js_code" then
        .ok { op with parameters := some { ps with file_path := normalized } }
      else
        .error ("Invalid file_path \"" ++ ps.file_path ++
          "\". Only html_code, css_code, and js_code are allowed. Do not create external files like game.js or style.css - all code must be inline.")
    else .ok op

/-- The orchestrator's validate-and-normalize loop over the operations array:
it throws at the first offending operation, before anything is executed. -/
def orchestrateValidate (i : Nat) : List ToolCall → Except String (List ToolCall)
  | [] => .ok []
  | op :: rest =>
    match validateOpAt i op with
    | .error e => .error e
    | .ok op' =>
      match orchestrateValidate (i + 1) rest with
      | .error e => .error e
      | .ok rest' => .ok (op' :: rest')

/-- The orchestrate → execute pipeline of the consuming page: a validation
error thrown by the orchestrator means the executor is never invoked. -/
def runPipeline (gen : String → String → Except String String)
    (summ : List String → Option String) (st : SessionState) (ops : List ToolCall) :
    Except String (SessionState × List String) :=
  match orchestrateValidate 0 ops with
  | .error e => .error e
  | .ok ops' => runExecutor gen summ st ops'

/-! ### Concrete collaborators for closed evaluations -/

/-- An image-generation collaborator that always fails. -/
def genFail : String → String → Except String String := fun _ _ => .error "generation failed"

/-- A change-summary collaborator that always fails (the executor then keeps
its default message). -/
def summNone : List String → Option String := fun _ => none

/-- The concrete session of the C1 evaluation: a balanced, wrapper-free
structure fragment of two lines. -/
def c1St : SessionState :=
  { html_code := "<div id=\"game\"></div>\n<div></div>", css_code := "c", js_code := "j",
    asset_urls := [], chat_history := [("user", "hi")], status := "orchestrating" }

/-- A `replace_lines` call rewriting line 2 of the structure fragment with
another balanced, wrapper-free line. -/
def c1Op : ToolCall :=
  { tool_name := "replace_lines",
    parameters := some { file_path := "html", start_line := some 2, end_line := some 2,
                         content := some "<div class=\"x\"></div>" } }

/-- The structure fragment after the line replacement of `c1Op`. -/
def c1NewHtml : String := "<div id=\"game\"></div>\n<div class=\"x\"></div>"

/-- C1 (code bug): after a `ReplaceRange` on the structure fragment the
executor's re-check is `validateHTML`, which demands the full-document
wrappers (doctype, `<html>`, `<head>`, `<body>`) on top of tag balance.  On a
perfectly balanced, wrapper-free fragment — the only legal form of a stored
structure fragment — the replacement succeeds, the balance part of the check
passes, yet the check fails on the four missing wrappers, so the fragment is
rolled back to its batch-start value and a rollback line is recorded, and the
batch continues to a successful commit. -/
theorem validateHTML_rolls_back_balanced_fragment :
    balanceErrors c1NewHtml = [] ∧
    replaceLines c1St.html_code 2 2 "<div class=\"x\"></div>" = (c1NewHtml, none) ∧
    (validateHTML c1NewHtml).1 = false ∧
    runExecutor genFail summNone c1St [c1Op] =
      .ok ({ c1St with
          chat_history := c1St.chat_history ++ [("assistant", defaultChatMsg)],
          status := "coding_complete" },
        ["WARNING: HTML validation failed after line replacement: Missing DOCTYPE declaration, Missing <html> tag, Missing <head> tag, Missing <body> tag",
         "Rolled back HTML to previous version due to validation failure"]) :=
  ⟨rfl, rfl, rfl, rfl⟩

/-- The concrete session of the C5 counterexample: the structure fragment is
empty. -/
def c5St : SessionState :=
  { html_code := "", css_code := "c", js_code := "j",
    asset_urls := [], chat_history := [], status := "orchestrating" }

/-- An out-of-range `replace_lines` on the (empty, hence one-line) structure
fragment: end = 2 exceeds the line count 1. -/
def c5Op : ToolCall :=
  { tool_name := "replace_lines",
    parameters := some { file_path := "html", start_line := some 2, end_line := some 2,
                         content := some "x" } }

/-- C5 counterexample: an out-of-range `ReplaceRange` aimed at an empty target
fragment leaves the fragment unchanged and is non-fatal, but it records zero
recoverable-error summary lines — the truthiness guard skips the range check
entirely and a success-style line is recorded instead — contradicting the
claimed "exactly one recoverable-error summary line". -/
theorem c5_out_of_range_on_empty_fragment :
    (2 : Int) > ((linesOfS c5St.html_code).length : Int) ∧
    runExecutor genFail summNone c5St [c5Op] =
      .ok ({ c5St with
          chat_history := c5St.chat_history ++ [("assistant", defaultChatMsg)],
          status := "coding_complete" },
        ["Replaced lines 2-2 in html."]) ∧
    ["Replaced lines 2-2 in html."].countP
      (fun l => "ERROR replacing lines".data.isPrefixOf l.data) = 0 :=
  ⟨by decide, rfl, rfl⟩

/-- The concrete session of the C9 counterexample. -/
def c9St : SessionState :=
  { html_code := "<p>old</p>", css_code := "c", js_code := "j",
    asset_urls := [], chat_history := [], status := "orchestrating" }

/-- A `write_file` to the structure fragment whose content is the empty
string. -/
def c9Op : ToolCall :=
  { tool_name := "write_file",
    parameters := some { file_path := "html", content := some "" } }

/-- C9 counterexample: a `WriteFragment` with a valid target but empty content
does not replace the fragment — the executor's truthiness test treats the
empty content as a missing parameter and skips the operation — contradicting
"succeeds … for every content value including the empty string". -/
theorem c9_empty_content_write_skipped :
    runExecutor genFail summNone c9St [c9Op] =
      .ok ({ c9St with
          chat_history := c9St.chat_history ++ [("assistant", defaultChatMsg)],
          status := "coding_complete" },
        ["Skipped write_file: missing file_path or content"]) ∧
    (storedAfter c9St (runExecutor genFail summNone c9St [c9Op])).html_code = "<p>old</p>" :=
  ⟨rfl, rfl⟩

/-! ### Helper lemmas about the executor -/

/-- Any out-of-range bound makes `replaceLines` return the code unchanged with
some error message. -/
theorem replaceLines_out_of_range (code c : String) (s e : Int)
    (h : s < 1 ∨ ((linesOfS code).length : Int) < e ∨ e < s) :
    ∃ msg, replaceLines code s e c = (code, some msg) := by
  unfold replaceLines
  by_cases h1 : s < 1 ∨ e < 1
  · exact ⟨_, by rw [if_pos h1]⟩
  · rw [if_neg h1]
    by_cases h2 : s > ((linesOfS code).length : Int) ∨ e > ((linesOfS code).length : Int)
    · exact ⟨_, by rw [if_pos h2]⟩
    · rw [if_neg h2]
      have h3 : s > e := by omega
      exact ⟨_, by rw [if_pos h3]⟩

/-- Running the executor on a batch holding one non-image call reduces to that
call's STAGE 3 step followed by the final commit. -/
theorem runExecutor_single_code_call (gen : String → String → Except String String)
    (summ : List String → Option String) (st : SessionState) (call : ToolCall)
    (hni : (call.tool_name == "generate_image") = false)
    (res : SessionState × List String)
    (hproc : processCodeCall st.html_code (st, []) call = .ok res) :
    runExecutor gen summ st [call] =
      .ok ({ res.1 with
          chat_history := res.1.chat_history ++ [("assistant", (summ res.2).getD defaultChatMsg)],
          status := "coding_complete" }, res.2) := by
  obtain ⟨st3, sum3⟩ := res
  unfold runExecutor
  simp only [List.filter, hni]
  unfold runExecutorOn
  simp only [List.foldl, List.foldlM, List.length_nil, Nat.lt_irrefl, if_false, hproc]
  rfl

/-- The mapped path of an unmapped raw path cannot be one of the three
fragment names unless the raw path is non-empty. -/
theorem mapFilePath_ne_empty (fpRaw : String)
    (hm : mapFilePath fpRaw = "html" ∨ mapFilePath fpRaw = "css" ∨ mapFilePath fpRaw = "js") :
    fpRaw ≠ "" := by
  intro h
  subst h
  simp [mapFilePath] at hm

/-- The stored fragment selected by a mapped path. -/
def fragGet (st : SessionState) (m : String) : String :=
  if m = "html" then st.html_code else if m = "css" then st.css_code else st.js_code

/-- C5 (amended): an out-of-range `ReplaceRange` whose target fragment is
non-empty leaves every stored field unchanged, records exactly one
recoverable-error summary line for the operation, and the batch still commits
(never a fatal error).  (Amendment: when the target fragment is empty the
range check is skipped and a success-style line with no error line is
recorded instead — see the counterexample.) -/
theorem c5_amended_out_of_range_recoverable (gen : String → String → Except String String)
    (summ : List String → Option String) (st : SessionState) (fpRaw c : String) (s e : Int)
    (hm : mapFilePath fpRaw = "html" ∨ mapFilePath fpRaw = "css" ∨ mapFilePath fpRaw = "js")
    (hfrag : fragGet st (mapFilePath fpRaw) ≠ "")
    (hoor : s < 1 ∨ ((linesOfS (fragGet st (mapFilePath fpRaw))).length : Int) < e ∨ e < s) :
    ∃ msg, runExecutor gen summ st
        [{ tool_name := "replace_lines",
           parameters := some { file_path := fpRaw, start_line := some s, end_line := some e,
                                content := some c } }] =
      .ok ({ st with
          chat_history := st.chat_history ++
            [("assistant",
              (summ ["ERROR replacing lines in " ++ mapFilePath fpRaw ++ ": " ++ msg]).getD
                defaultChatMsg)],
          status := "coding_complete" },
        ["ERROR replacing lines in " ++ mapFilePath fpRaw ++ ": " ++ msg]) := by
  have hne : fpRaw ≠ "" := mapFilePath_ne_empty fpRaw hm
  have hpar : ¬ (fpRaw = "" ∨ (some s : Option Int) = none ∨ (some e : Option Int) = none ∨
      (some c : Option String) = none) := by
    simp [hne]
  rcases hm with hx | hx | hx
  · have hg : fragGet st "html" = st.html_code := rfl
    rw [hx, hg] at hfrag hoor
    obtain ⟨msg, hmsg⟩ := replaceLines_out_of_range st.html_code c s e hoor
    refine ⟨msg, runExecutor_single_code_call gen summ st _ ?_
      (st, ["ERROR replacing lines in " ++ mapFilePath fpRaw ++ ": " ++ msg]) ?_⟩
    · rfl
    · simp [processCodeCall, hne, hx, hfrag, hmsg]
  · have hg : fragGet st "css" = st.css_code := rfl
    rw [hx, hg] at hfrag hoor
    obtain ⟨msg, hmsg⟩ := replaceLines_out_of_range st.css_code c s e hoor
    refine ⟨msg, runExecutor_single_code_call gen summ st _ ?_
      (st, ["ERROR replacing lines in " ++ mapFilePath fpRaw ++ ": " ++ msg]) ?_⟩
    · rfl
    · simp [processCodeCall, hne, hx, hfrag, hmsg]
  · have hg : fragGet st "js" = st.js_code := rfl
    rw [hx, hg] at hfrag hoor
    obtain ⟨msg, hmsg⟩ := replaceLines_out_of_range st.js_code c s e hoor
    refine ⟨msg, runExecutor_single_code_call gen summ st _ ?_
      (st, ["ERROR replacing lines in " ++ mapFilePath fpRaw ++ ": " ++ msg]) ?_⟩
    · rfl
    · simp [processCodeCall, hne, hx, hfrag, hmsg]

/-- Witness for the amended C5 at a concrete input: start 0 on a two-line
style fragment. -/
theorem c5_amended_witness :
    ∃ msg, runExecutor genFail summNone
        { html_code := "<p></p>", css_code := "a\nb", js_code := "j",
          asset_urls := [], chat_history := [], status := "s" }
        [{ tool_name := "replace_lines",
           parameters := some { file_path := "style.css", start_line := some 0,
                                end_line := some 1, content := some "x" } }] =
      .ok ({ html_code := "<p></p>", css_code := "a\nb", js_code := "j",
             asset_urls := [],
             chat_history := [("assistant", defaultChatMsg)], status := "coding_complete" },
        ["ERROR replacing lines in " ++ mapFilePath "style.css" ++ ": " ++ msg]) := by
  obtain ⟨msg, h⟩ := c5_amended_out_of_range_recoverable genFail summNone
    { html_code := "<p></p>", css_code := "a\nb", js_code := "j",
      asset_urls := [], chat_history := [], status := "s" }
    "style.css" "x" 0 1 (by decide) (by decide) (by decide)
  exact ⟨msg, h⟩

/-- C9 (amended): every `WriteFragment` whose target is valid after the
lenient mapping and whose content is non-empty (and, for the structure
target, free of external file references) succeeds and replaces the target
fragment wholesale, leaving the other two fragments, the assets and the rest
of the state untouched, with one summary line recorded.  (Amendment forced by
the counterexample: the executor treats an empty content as a missing
parameter and skips the operation; a structure write with an external
reference is fatal, see C3.) -/
theorem c9_amended_valid_write_replaces_wholesale
    (gen : String → String → Except String String) (summ : List String → Option String)
    (st : SessionState) (fpRaw c : String)
    (hm : mapFilePath fpRaw = "html" ∨ mapFilePath fpRaw = "css" ∨ mapFilePath fpRaw = "js")
    (hc : c ≠ "")
    (hext : mapFilePath fpRaw = "html" → hasExternalRefs c = false) :
    runExecutor gen summ st
        [{ tool_name := "write_file",
           parameters := some { file_path := fpRaw, content := some c } }] =
      .ok ({ st with
          html_code := if mapFilePath fpRaw = "html" then c else st.html_code,
          css_code := if mapFilePath fpRaw = "css" then c else st.css_code,
          js_code := if mapFilePath fpRaw = "js" then c else st.js_code,
          chat_history := st.chat_history ++
            [("assistant", (summ ["Wrote content to " ++ mapFilePath fpRaw ++ "."]).getD
              defaultChatMsg)],
          status := "coding_complete" },
        ["Wrote content to " ++ mapFilePath fpRaw ++ "."]) := by
  have hne : fpRaw ≠ "" := mapFilePath_ne_empty fpRaw hm
  refine runExecutor_single_code_call gen summ st _ ?_
    ({ st with
        html_code := if mapFilePath fpRaw = "html" then c else st.html_code,
        css_code := if mapFilePath fpRaw = "css" then c else st.css_code,
        js_code := if mapFilePath fpRaw = "js" then c else st.js_code },
      ["Wrote content to " ++ mapFilePath fpRaw ++ "."]) ?_
  · rfl
  rcases hm with hx | hx | hx
  · simp [processCodeCall, hne, hc, hx, hext hx]
  · simp [processCodeCall, hne, hc, hx]
  · simp [processCodeCall, hne, hc, hx]

/-- Witness for the amended C9 at a concrete input: a `write_file` through the
synonym `js_code`. -/
theorem c9_amended_witness :
    runExecutor genFail summNone
      { html_code := "<p></p>", css_code := "c", js_code := "old",
        asset_urls := [], chat_history := [], status := "s" }
      [{ tool_name := "write_file",
         parameters := some { file_path := "js_code", content := some "let x = 1;" } }] =
      .ok ({ html_code := "<p></p>", css_code := "c", js_code := "let x = 1;",
             asset_urls := [],
             chat_history := [("assistant", defaultChatMsg)], status := "coding_complete" },
        ["Wrote content to js."]) := by
  have h := c9_amended_valid_write_replaces_wholesale genFail summNone
    { html_code := "<p></p>", css_code := "c", js_code := "old",
      asset_urls := [], chat_history := [], status := "s" }
    "js_code" "let x = 1;" (by decide) (by decide) (by intro h; exact absurd h (by decide))
  simpa using h

/-! ### C2: unmappable targets are rejected by the orchestrator -/

theorem orchestrateValidate_error_of_mem (op : ToolCall)
    (hf : ∀ i, ∃ e, validateOpAt i op = .error e) :
    ∀ (ops : List ToolCall), op ∈ ops → ∀ i0, ∃ e, orchestrateValidate i0 ops = .error e := by
  intro ops
  induction ops with
  | nil => intro h; exact absurd h (List.not_mem_nil op)
  | cons a rest ih =>
    intro hmem i0
    rcases List.mem_cons.mp hmem with rfl | hx
    · obtain ⟨e, he⟩ := hf i0
      exact ⟨e, by simp [orchestrateValidate, he]⟩
    · cases ha : validateOpAt i0 a with
      | error e => exact ⟨e, by simp [orchestrateValidate, ha]⟩
      | ok a' =>
        obtain ⟨e, he⟩ := ih hx (i0 + 1)
        exact ⟨e, by simp [orchestrateValidate, ha, he]⟩

/-- C2: a batch containing a `WriteFragment` whose target the lenient mapping
cannot send to one of the three fragments is rejected by the orchestrator's
validation loop before the executor is invoked, so all three stored fragments
(and every other stored field) keep their pre-batch values. -/
theorem c2_unmappable_write_target_rejected
    (gen : String → String → Except String String) (summ : List String → Option String)
    (st : SessionState) (ops : List ToolCall) (op : ToolCall) (ps : ToolParams)
    (hmem : op ∈ ops) (hname : op.tool_name = "write_file")
    (hps : op.parameters = some ps) (hfp : ps.file_path ≠ "")
    (hb1 : normalizeFilePath ps.file_path ≠ "html_code")
    (hb2 : normalizeFilePath ps.file_path ≠ "css_code")
    (hb3 : normalizeFilePath ps.file_path ≠ "js_code") :
    (∃ e, orchestrateValidate 0 ops = .error e) ∧
    storedAfter st (runPipeline gen summ st ops) = st := by
  have hval : ∀ i, ∃ e, validateOpAt i op = .error e := by
    intro i
    refine ⟨"Invalid file_path \"" ++ ps.file_path ++
      "\". Only html_code, css_code, and js_code are allowed. Do not create external files like game.js or style.css - all code must be inline.", ?_⟩
    simp [validateOpAt, hname, hps, hfp, hb1, hb2, hb3]
  obtain ⟨e, he⟩ := orchestrateValidate_error_of_mem op hval ops hmem 0
  exact ⟨⟨e, he⟩, by rw [runPipeline, he]; rfl⟩

/-- Witness for C2: a batch holding one valid write and one write aimed at
`sprites/ship.js`. -/
theorem c2_unmappable_write_target_witness :
    (∃ e, orchestrateValidate 0
      [{ tool_name := "write_file",
         parameters := some { file_path := "html_code", content := some "<p></p>" } },
       { tool_name := "write_file",
         parameters := some { file_path := "sprites/ship.js", content := some "x" } }] =
        .error e) ∧
    storedAfter c9St (runPipeline genFail summNone c9St
      [{ tool_name := "write_file",
         parameters := some { file_path := "html_code", content := some "<p></p>" } },
       { tool_name := "write_file",
         parameters := some { file_path := "sprites/ship.js", content := some "x" } }]) = c9St :=
  c2_unmappable_write_target_rejected genFail summNone c9St _
    { tool_name := "write_file",
      parameters := some { file_path := "sprites/ship.js", content := some "x" } }
    { file_path := "sprites/ship.js", content := some "x" }
    (by simp) rfl rfl (by decide) (by decide) (by decide) (by decide)

/-! ### C3: an external file reference is fatal to the whole batch -/

theorem foldlM_error_of_mem {α β : Type} (f : β → α → Except String β) (x : α)
    (hf : ∀ b, ∃ e, f b x = .error e) :
    ∀ (l : List α), x ∈ l → ∀ b0, ∃ e, l.foldlM f b0 = .error e := by
  intro l
  induction l with
  | nil => intro h; exact absurd h (List.not_mem_nil x)
  | cons a rest ih =>
    intro hmem b0
    rcases List.mem_cons.mp hmem with rfl | hx
    · obtain ⟨e, he⟩ := hf b0
      refine ⟨e, ?_⟩
      rw [List.foldlM_cons, he]
      rfl
    · cases ha : f b0 a with
      | error e =>
        refine ⟨e, ?_⟩
        rw [List.foldlM_cons, ha]
        rfl
      | ok b1 =>
        obtain ⟨e, he⟩ := ih hx b1
        refine ⟨e, ?_⟩
        rw [List.foldlM_cons, ha]
        show List.foldlM f b1 rest = Except.error e
        exact he

theorem hasExternalRefs_ne_empty (c : String) (h : hasExternalRefs c = true) : c ≠ "" := by
  intro hc
  rw [hc] at h
  exact absurd h (by decide)

/-- A `write_file` to the structure fragment whose content holds an external
reference makes the STAGE 3 step throw, whatever the accumulated state. -/
theorem processCodeCall_external_ref_error (backup : String) (acc : SessionState × List String)
    (call : ToolCall) (ps : ToolParams) (c : String)
    (hname : call.tool_name = "write_file") (hps : call.parameters = some ps)
    (hfp : ps.file_path ≠ "") (hhtml : mapFilePath ps.file_path = "html")
    (hcontent : ps.content = some c) (hext : hasExternalRefs c = true) :
    processCodeCall backup acc call = .error (externalRefErrorMsg c) := by
  obtain ⟨st, summary⟩ := acc
  have hcne : c ≠ "" := hasExternalRefs_ne_empty c hext
  simp [processCodeCall, hname, hps, hcontent, hfp, hcne, hhtml, hext]

/-- C3: a batch in which some `write_file` to the structure fragment carries
content with an external (non-network, non-data-URL) script, stylesheet or
image reference fails as a whole — whatever the other operations are — and
the stored session (fragments, assets, history, status) stays at its
pre-batch value, because the single commit never runs. -/
theorem c3_external_ref_batch_rejected
    (gen : String → String → Except String String) (summ : List String → Option String)
    (st : SessionState) (calls : List ToolCall) (call : ToolCall) (ps : ToolParams) (c : String)
    (hmem : call ∈ calls) (hname : call.tool_name = "write_file")
    (hps : call.parameters = some ps) (hfp : ps.file_path ≠ "")
    (hhtml : mapFilePath ps.file_path = "html")
    (hcontent : ps.content = some c) (hext : hasExternalRefs c = true) :
    (∃ e, runExecutor gen summ st calls = .error e) ∧
    storedAfter st (runExecutor gen summ st calls) = st := by
  have hmem' : call ∈ calls.filter (fun t => !(t.tool_name == "generate_image")) := by
    apply List.mem_filter_of_mem hmem
    simp [hname]
  have hf : ∀ b, ∃ e, processCodeCall st.html_code b call = .error e :=
    fun b => ⟨externalRefErrorMsg c,
      processCodeCall_external_ref_error st.html_code b call ps c hname hps hfp hhtml
        hcontent hext⟩
  have hfold := foldlM_error_of_mem (fun a t => processCodeCall st.html_code a t) call hf
    (calls.filter (fun t => !(t.tool_name == "generate_image"))) hmem'
  have herr : ∃ e, runExecutor gen summ st calls = .error e := by
    simp only [runExecutor, runExecutorOn]
    obtain ⟨e, he⟩ := hfold _
    refine ⟨e, ?_⟩
    rw [he]
  obtain ⟨e, he⟩ := herr
  exact ⟨⟨e, he⟩, by rw [he]; rfl⟩

/-- Witness for C3: a batch with a valid style write followed by a structure
write referencing `game.js`. -/
theorem c3_external_ref_batch_witness :
    (∃ e, runExecutor genFail summNone c9St
      [{ tool_name := "write_file",
         parameters := some { file_path := "css", content := some "body \x7b margin: 0 \x7d" } },
       { tool_name := "write_file",
         parameters := some { file_path := "html",
                              content := some "<canvas></canvas><script src=\"game.js\"></script>" } }] =
        .error e) ∧
    storedAfter c9St (runExecutor genFail summNone c9St
      [{ tool_name := "write_file",
         parameters := some { file_path := "css", content := some "body \x7b margin: 0 \x7d" } },
       { tool_name := "write_file",
         parameters := some { file_path := "html",
                              content := some "<canvas></canvas><script src=\"game.js\"></script>" } }]) = c9St :=
  c3_external_ref_batch_rejected genFail summNone c9St _
    { tool_name := "write_file",
      parameters := some { file_path := "html",
                           content := some "<canvas></canvas><script src=\"game.js\"></script>" } }
    { file_path := "html",
      content := some "<canvas></canvas><script src=\"game.js\"></script>" }
    "<canvas></canvas><script src=\"game.js\"></script>"
    (by simp) rfl rfl (by decide) (by decide) rfl (by decide)

/-! ### C4: the batch is processed in fixed stages -/

theorem filter_filter_self {α : Type} (p : α → Bool) (l : List α) :
    (l.filter p).filter p = l.filter p := by
  induction l with
  | nil => rfl
  | cons a rest ih => cases h : p a <;> simp [List.filter_cons, h, ih]

theorem filter_not_of_filter {α : Type} (p : α → Bool) (l : List α) :
    (l.filter p).filter (fun a => !(p a)) = [] := by
  induction l with
  | nil => rfl
  | cons a rest ih => cases h : p a <;> simp [List.filter_cons, h, ih]

theorem filter_of_filter_not {α : Type} (p : α → Bool) (l : List α) :
    (l.filter (fun a => !(p a))).filter p = [] := by
  induction l with
  | nil => rfl
  | cons a rest ih => cases h : p a <;> simp [List.filter_cons, h, ih]

theorem filter_not_filter_not {α : Type} (p : α → Bool) (l : List α) :
    (l.filter (fun a => !(p a))).filter (fun a => !(p a)) =
      l.filter (fun a => !(p a)) := by
  induction l with
  | nil => rfl
  | cons a rest ih => cases h : p a <;> simp [List.filter_cons, h, ih]

/-- C4: the executor's processing order is fixed and staged.  First conjunct:
the run's outcome is unchanged when every `generate_image` call is moved to
the front of the batch — the executor filters the batch into the image
sublist and the code sublist and always completes all image work (success or
recorded failure) first, whatever the interleaving.  Second conjunct: in a
batch with a successful image generation followed in the list by a code
write, the write's content lands verbatim in the behavior fragment — the
placeholder-substitution stage has already run on the stored fragments before
any code operation is applied, so content written by the code stage is never
substituted. -/
theorem c4_staged_processing
    (gen : String → String → Except String String) (summ : List String → Option String)
    (st : SessionState) (ops : List ToolCall) (name prompt url c : String)
    (hn : name ≠ "") (hp : prompt ≠ "") (hgen : gen name prompt = .ok url) (hc : c ≠ "") :
    runExecutor gen summ st ops =
      runExecutor gen summ st
        (ops.filter (fun t => t.tool_name == "generate_image") ++
         ops.filter (fun t => !(t.tool_name == "generate_image"))) ∧
    (storedAfter st (runExecutor gen summ st
        [{ tool_name := "generate_image",
           parameters := some { name := name, prompt := prompt } },
         { tool_name := "write_file",
           parameters := some { file_path := "js", content := some c } }])).js_code = c := by
  constructor
  · unfold runExecutor
    rw [List.filter_append, List.filter_append,
      filter_filter_self, filter_of_filter_not, filter_not_of_filter, filter_not_filter_not,
      List.append_nil, List.nil_append]
  · simp [runExecutor, runExecutorOn, processImageCall, processCodeCall, storedAfter,
      setEntry, stage2Subst, applyAsset, hn, hp, hgen, hc,
      (show mapFilePath "js" = "js" from rfl)]

/-- An image-generation collaborator that always returns the same URL (used by
the C4 witness). -/
def genConst : String → String → Except String String := fun _ _ => .ok "https://x/ship.png"

/-- Witness for C4 at concrete inputs: a batch with a code call before the
image call gives the same result as the image-first arrangement, and the
later write lands verbatim. -/
theorem c4_staged_processing_witness :
    runExecutor genConst summNone c9St
      [{ tool_name := "write_file",
         parameters := some { file_path := "css", content := some "p \x7b color: red \x7d" } },
       { tool_name := "generate_image",
         parameters := some { name := "ship", prompt := "a ship" } }] =
      runExecutor genConst summNone c9St
        ([{ tool_name := "write_file",
            parameters := some { file_path := "css", content := some "p \x7b color: red \x7d" } },
          { tool_name := "generate_image",
            parameters := some { name := "ship", prompt := "a ship" } }].filter
            (fun t => t.tool_name == "generate_image") ++
         [{ tool_name := "write_file",
            parameters := some { file_path := "css", content := some "p \x7b color: red \x7d" } },
          { tool_name := "generate_image",
            parameters := some { name := "ship", prompt := "a ship" } }].filter
            (fun t => !(t.tool_name == "generate_image"))) ∧
    (storedAfter c9St (runExecutor genConst summNone c9St
        [{ tool_name := "generate_image",
           parameters := some { name := "ship", prompt := "a ship" } },
         { tool_name := "write_file",
           parameters := some { file_path := "js", content := some "x = 'ship'" } }])).js_code =
      "x = 'ship'" :=
  c4_staged_processing genConst summNone c9St _ "ship" "a ship" "https://x/ship.png"
    "x = 'ship'" (by decide) (by decide) rfl (by decide)

/-! ### C7: lemmas about the substitution scanners -/

/-- Characters free of the placeholder delimiters: no quote, no opening
brace. -/
def cleanChar (c : Char) : Bool := !(isQuoteCh c) && !(c == '{')

def cleanStr (s : String) : Bool := s.data.all cleanChar

theorem clean_no_quote (s : List Char) (h : ∀ c ∈ s, cleanChar c = true) :
    ∀ c ∈ s, isQuoteCh c = false := by
  intro c hc
  have hcc := h c hc
  simp only [cleanChar, Bool.and_eq_true, Bool.not_eq_true'] at hcc
  exact hcc.1

theorem clean_no_brace (s : List Char) (h : ∀ c ∈ s, cleanChar c = true) : '{' ∉ s := by
  intro hm
  have hcc := h '{' hm
  simp [cleanChar] at hcc

theorem hasLitMatch_eq_false (p0 : Char) (prest s : List Char) (h : p0 ∉ s) :
    hasLitMatch p0 prest s = false := by
  induction s with
  | nil => rfl
  | cons c cs ih =>
    simp only [List.mem_cons, not_or] at h
    have hcp : (c == p0) = false := by
      simp only [beq_eq_false_iff_ne, ne_eq]
      intro hcc
      exact h.1 hcc.symm
    simp [hasLitMatch, hcp, ih h.2]

theorem replLitF_id (p0 : Char) (prest rep s : List Char)
    (h : hasLitMatch p0 prest s = false) : ∀ f, replLitF p0 prest rep f s = s := by
  induction s with
  | nil => intro f; cases f <;> rfl
  | cons c cs ih =>
    intro f
    cases f with
    | zero => rfl
    | succ f' =>
      rw [show hasLitMatch p0 prest (c :: cs) =
        (((c == p0) && prest.isPrefixOf cs) || hasLitMatch p0 prest cs) from rfl] at h
      have h1 := Bool.or_eq_false_iff.mp h
      have hcond : ¬ (c = p0 ∧ prest.isPrefixOf cs = true) := by
        intro hcc
        have h2 := h1.1
        rw [hcc.1, hcc.2] at h2
        simp at h2
      simp only [replLitF]
      rw [if_neg hcond, ih h1.2 f']

theorem isPrefixOf_append_self (p b : List Char) : p.isPrefixOf (p ++ b) = true :=
  List.isPrefixOf_iff_prefix.mpr (List.prefix_append p b)

theorem replLitF_boundary (p0 : Char) (prest rep a b : List Char)
    (ha : p0 ∉ a) (hb : hasLitMatch p0 prest b = false) :
    ∀ f, (a ++ (p0 :: prest) ++ b).length ≤ f →
      replLitF p0 prest rep f (a ++ (p0 :: prest) ++ b) = a ++ rep ++ b := by
  induction a with
  | nil =>
    intro f hf
    cases f with
    | zero =>
      exfalso
      simp only [List.nil_append, List.length_append, List.length_cons] at hf
      omega
    | succ f' =>
      show replLitF p0 prest rep (f' + 1) (p0 :: (prest ++ b)) = rep ++ b
      rw [show replLitF p0 prest rep (f' + 1) (p0 :: (prest ++ b)) =
        if p0 = p0 ∧ prest.isPrefixOf (prest ++ b) = true then
          rep ++ replLitF p0 prest rep f' ((prest ++ b).drop prest.length)
        else p0 :: replLitF p0 prest rep f' (prest ++ b) from rfl]
      rw [if_pos ⟨rfl, isPrefixOf_append_self prest b⟩]
      rw [List.drop_left]
      rw [replLitF_id p0 prest rep b hb f']
  | cons x a' ih =>
    intro f hf
    cases f with
    | zero =>
      exfalso
      simp only [List.cons_append, List.length_cons] at hf
      omega
    | succ f' =>
      simp only [List.mem_cons, not_or] at ha
      show replLitF p0 prest rep (f' + 1) (x :: (a' ++ (p0 :: prest) ++ b)) =
        x :: (a' ++ rep ++ b)
      rw [show replLitF p0 prest rep (f' + 1) (x :: (a' ++ (p0 :: prest) ++ b)) =
        if x = p0 ∧ prest.isPrefixOf (a' ++ (p0 :: prest) ++ b) = true then
          rep ++ replLitF p0 prest rep f' ((a' ++ (p0 :: prest) ++ b).drop prest.length)
        else x :: replLitF p0 prest rep f' (a' ++ (p0 :: prest) ++ b) from rfl]
      rw [if_neg (fun hcc => ha.1 hcc.1.symm)]
      rw [ih ha.2 f'
        (by simp only [List.cons_append, List.length_cons] at hf; omega)]

theorem hasQuotedMatch_eq_false_of_clean (mid s : List Char)
    (h : ∀ c ∈ s, isQuoteCh c = false) : hasQuotedMatch mid s = false := by
  induction s with
  | nil => rfl
  | cons c cs ih =>
    have hc := h c (List.mem_cons_self c cs)
    simp [hasQuotedMatch, hc, ih (fun x hx => h x (List.mem_cons_of_mem c hx))]

theorem replQuotF_id (mid rep s : List Char) (h : hasQuotedMatch mid s = false) :
    ∀ f, replQuotF mid rep f s = s := by
  induction s with
  | nil => intro f; cases f <;> rfl
  | cons c cs ih =>
    intro f
    cases f with
    | zero => rfl
    | succ f' =>
      rw [show hasQuotedMatch mid (c :: cs) =
        ((isQuoteCh c && (mid ++ [c]).isPrefixOf cs) || hasQuotedMatch mid cs) from rfl] at h
      have h1 := Bool.or_eq_false_iff.mp h
      have hcond : ¬ (isQuoteCh c = true ∧ (mid ++ [c]).isPrefixOf cs = true) := by
        intro hcc
        have h2 := h1.1
        rw [hcc.1, hcc.2] at h2
        simp at h2
      simp only [replQuotF]
      rw [if_neg hcond, ih h1.2 f']

theorem drop_append_cons (mid : List Char) (q : Char) (b : List Char) :
    (mid ++ q :: b).drop (mid.length + 1) = b := by
  rw [show mid ++ q :: b = (mid ++ [q]) ++ b by simp]
  rw [show mid.length + 1 = (mid ++ [q]).length by simp]
  exact List.drop_left _ _

theorem isPrefixOf_append_cons (mid : List Char) (q : Char) (b : List Char) :
    (mid ++ [q]).isPrefixOf (mid ++ q :: b) = true := by
  rw [show mid ++ q :: b = (mid ++ [q]) ++ b by simp]
  exact isPrefixOf_append_self _ _

theorem replQuotF_boundary (mid rep a b : List Char) (q : Char)
    (hq : isQuoteCh q = true) (ha : ∀ c ∈ a, isQuoteCh c = false)
    (hb : hasQuotedMatch mid b = false) :
    ∀ f, (a ++ q :: (mid ++ q :: b)).length ≤ f →
      replQuotF mid rep f (a ++ q :: (mid ++ q :: b)) = a ++ rep ++ b := by
  induction a with
  | nil =>
    intro f hf
    cases f with
    | zero =>
      exfalso
      simp only [List.nil_append, List.length_cons] at hf
      omega
    | succ f' =>
      show replQuotF mid rep (f' + 1) (q :: (mid ++ q :: b)) = rep ++ b
      rw [show replQuotF mid rep (f' + 1) (q :: (mid ++ q :: b)) =
        if isQuoteCh q = true ∧ ((mid ++ [q]).isPrefixOf (mid ++ q :: b)) = true then
          rep ++ replQuotF mid rep f' ((mid ++ q :: b).drop (mid.length + 1))
        else q :: replQuotF mid rep f' (mid ++ q :: b) from rfl]
      rw [if_pos ⟨hq, isPrefixOf_append_cons mid q b⟩]
      rw [drop_append_cons]
      rw [replQuotF_id mid rep b hb f']
  | cons x a' ih =>
    intro f hf
    cases f with
    | zero =>
      exfalso
      simp only [List.cons_append, List.length_cons] at hf
      omega
    | succ f' =>
      have hx := ha x (List.mem_cons_self x a')
      have hcond : ¬ (isQuoteCh x = true ∧
          ((mid ++ [x]).isPrefixOf (a' ++ q :: (mid ++ q :: b))) = true) := by
        intro hcc
        have h2 := hcc.1
        rw [hx] at h2
        exact absurd h2 (by decide)
      show replQuotF mid rep (f' + 1) (x :: (a' ++ q :: (mid ++ q :: b))) =
        x :: (a' ++ rep ++ b)
      rw [show replQuotF mid rep (f' + 1) (x :: (a' ++ q :: (mid ++ q :: b))) =
        if isQuoteCh x = true ∧ ((mid ++ [x]).isPrefixOf (a' ++ q :: (mid ++ q :: b))) = true then
          rep ++ replQuotF mid rep f' ((a' ++ q :: (mid ++ q :: b)).drop (mid.length + 1))
        else x :: replQuotF mid rep f' (a' ++ q :: (mid ++ q :: b)) from rfl]
      rw [if_neg hcond]
      rw [ih (fun y hy => ha y (List.mem_cons_of_mem x hy)) f'
        (by simp only [List.cons_append, List.length_cons] at hf; omega)]

theorem hasQuotedMatch_append_clean (mid a s : List Char)
    (ha : ∀ c ∈ a, isQuoteCh c = false) :
    hasQuotedMatch mid (a ++ s) = hasQuotedMatch mid s := by
  induction a with
  | nil => rfl
  | cons c cs ih =>
    have hc := ha c (List.mem_cons_self c cs)
    simp [hasQuotedMatch, hc, ih (fun x hx => ha x (List.mem_cons_of_mem c hx))]

theorem isPrefixOf_append_cancel (x y z : List Char) :
    (x ++ y).isPrefixOf (x ++ z) = y.isPrefixOf z := by
  induction x with
  | nil => rfl
  | cons c cs ih => simp [List.isPrefixOf, ih]

theorem isPrefixOf_eq_false_of_quote_clean (mid b : List Char) (q : Char)
    (hq : isQuoteCh q = true) (hb : ∀ c ∈ b, isQuoteCh c = false) :
    (mid ++ [q]).isPrefixOf b = false := by
  cases h : (mid ++ [q]).isPrefixOf b
  · rfl
  · exfalso
    have hpre : (mid ++ [q]) <+: b := List.isPrefixOf_iff_prefix.mp h
    have hqb : q ∈ b := hpre.sublist.subset (by simp)
    rw [hb q hqb] at hq
    exact absurd hq (by decide)

/-- Unfold `replaceLit` once the pattern's character list is exposed. -/
theorem replaceLit_data (p0 : Char) (prest : List Char) (pat rep s : String)
    (hpat : pat.data = p0 :: prest) :
    replaceLit pat rep s = String.mk (replLitF p0 prest rep.data s.data.length s.data) := by
  unfold replaceLit
  rw [hpat]

/-- Unfold the three substitution passes to the character-list scanners. -/
theorem substPasses_data (name rep frag : String) (prest : List Char)
    (hpat : ("\x7b\x7b" ++ name ++ "\x7d\x7d").data = '{' :: prest) :
    substPasses name rep frag =
      String.mk (replQuotF name.data rep.data
        (replQuotF (name ++ ".png").data rep.data
          (replLitF '{' prest rep.data frag.data.length frag.data).length
          (replLitF '{' prest rep.data frag.data.length frag.data)).length
        (replQuotF (name ++ ".png").data rep.data
          (replLitF '{' prest rep.data frag.data.length frag.data).length
          (replLitF '{' prest rep.data frag.data.length frag.data))) := by
  unfold substPasses
  rw [replaceLit_data '{' prest _ rep frag hpat]
  rfl

/-- The three substitution passes on a fragment holding one placeholder
occurrence with clean surroundings rewrite the occurrence to the replacement
string — for each of the three pattern forms of STAGE 2. -/
theorem substPasses_boundary (name rep a b : String) (q : Char)
    (hq : isQuoteCh q = true)
    (haL : ∀ c ∈ a.data, cleanChar c = true) (hbL : ∀ c ∈ b.data, cleanChar c = true)
    (hnameL : ∀ c ∈ name.data, cleanChar c = true)
    (hA : hasQuotedMatch (name ++ ".png").data (a ++ rep ++ b).data = false)
    (hB : hasQuotedMatch name.data (a ++ rep ++ b).data = false) :
    substPasses name rep (a ++ ("\x7b\x7b" ++ name ++ "\x7d\x7d") ++ b) = a ++ rep ++ b ∧
    substPasses name rep (a ++ String.mk (q :: (name.data ++ ".png".data ++ [q])) ++ b) =
      a ++ rep ++ b ∧
    substPasses name rep (a ++ String.mk (q :: (name.data ++ [q])) ++ b) = a ++ rep ++ b := by
  have haQ := clean_no_quote a.data haL
  have hbQ := clean_no_quote b.data hbL
  have hnameQ := clean_no_quote name.data hnameL
  have haB := clean_no_brace a.data haL
  have hbB := clean_no_brace b.data hbL
  have hnameB := clean_no_brace name.data hnameL
  have hqd : q = '\'' ∨ q = '"' := by
    simp only [isQuoteCh, Bool.or_eq_true, decide_eq_true_eq] at hq
    exact hq
  have hqbrace : q ≠ '{' := by rcases hqd with rfl | rfl <;> decide
  have hdotq : ('.' == q) = false := by rcases hqd with rfl | rfl <;> decide
  have hmid : (name ++ ".png").data = name.data ++ ".png".data := String.data_append _ _
  have hrw : (a ++ rep ++ b).data = a.data ++ rep.data ++ b.data := by
    rw [String.data_append, String.data_append]
  have hA' : hasQuotedMatch (name ++ ".png").data (a.data ++ rep.data ++ b.data) = false := by
    rw [← hrw]; exact hA
  have hB' : hasQuotedMatch name.data (a.data ++ rep.data ++ b.data) = false := by
    rw [← hrw]; exact hB
  have hpat : ("\x7b\x7b" ++ name ++ "\x7d\x7d").data =
      '{' :: ('{' :: (name.data ++ ['}', '}'])) := by
    rw [String.data_append, String.data_append,
      show "\x7b\x7b".data = ['{', '{'] from rfl, show "\x7d\x7d".data = ['}', '}'] from rfl,
      List.append_assoc]
    rfl
  have step2id : replQuotF (name ++ ".png").data rep.data
      (a.data ++ rep.data ++ b.data).length (a.data ++ rep.data ++ b.data) =
      a.data ++ rep.data ++ b.data := replQuotF_id _ _ _ hA' _
  have step3id : replQuotF name.data rep.data
      (a.data ++ rep.data ++ b.data).length (a.data ++ rep.data ++ b.data) =
      a.data ++ rep.data ++ b.data := replQuotF_id _ _ _ hB' _
  refine ⟨?_, ?_, ?_⟩
  · -- the curly-brace form
    have hfrag1 : (a ++ ("\x7b\x7b" ++ name ++ "\x7d\x7d") ++ b).data =
        a.data ++ ('{' :: ('{' :: (name.data ++ ['}', '}']))) ++ b.data := by
      rw [String.data_append, String.data_append, hpat]
    have step1 : replLitF '{' ('{' :: (name.data ++ ['}', '}'])) rep.data
        (a ++ ("\x7b\x7b" ++ name ++ "\x7d\x7d") ++ b).data.length
        (a ++ ("\x7b\x7b" ++ name ++ "\x7d\x7d") ++ b).data =
        a.data ++ rep.data ++ b.data := by
      rw [hfrag1]
      exact replLitF_boundary '{' ('{' :: (name.data ++ ['}', '}'])) rep.data a.data b.data
        haB (hasLitMatch_eq_false _ _ _ hbB) _ (le_refl _)
    rw [substPasses_data name rep _ ('{' :: (name.data ++ ['}', '}'])) hpat, step1,
      step2id, step3id]
    exact String.ext (by rw [hrw])
  · -- the quoted name.png form
    have hfrag2 : (a ++ String.mk (q :: (name.data ++ ".png".data ++ [q])) ++ b).data =
        a.data ++ q :: ((name ++ ".png").data ++ q :: b.data) := by
      rw [String.data_append, String.data_append,
        show (String.mk (q :: (name.data ++ ".png".data ++ [q]))).data =
          q :: (name.data ++ ".png".data ++ [q]) from rfl, hmid]
      simp [List.append_assoc]
    have hnb2 : '{' ∉ (a ++ String.mk (q :: (name.data ++ ".png".data ++ [q])) ++ b).data := by
      rw [hfrag2]
      intro hm
      rcases List.mem_append.mp hm with h | h
      · exact haB h
      · rcases List.mem_cons.mp h with h | h
        · exact hqbrace h.symm
        · rcases List.mem_append.mp h with h | h
          · rw [hmid] at h
            rcases List.mem_append.mp h with h | h
            · exact hnameB h
            · simp at h
          · rcases List.mem_cons.mp h with h | h
            · exact hqbrace h.symm
            · exact hbB h
    have step1 : replLitF '{' ('{' :: (name.data ++ ['}', '}'])) rep.data
        (a ++ String.mk (q :: (name.data ++ ".png".data ++ [q])) ++ b).data.length
        (a ++ String.mk (q :: (name.data ++ ".png".data ++ [q])) ++ b).data =
        (a ++ String.mk (q :: (name.data ++ ".png".data ++ [q])) ++ b).data :=
      replLitF_id _ _ _ _ (hasLitMatch_eq_false _ _ _ hnb2) _
    have step2 : replQuotF (name ++ ".png").data rep.data
        (a ++ String.mk (q :: (name.data ++ ".png".data ++ [q])) ++ b).data.length
        (a ++ String.mk (q :: (name.data ++ ".png".data ++ [q])) ++ b).data =
        a.data ++ rep.data ++ b.data := by
      rw [hfrag2]
      exact replQuotF_boundary _ rep.data a.data b.data q hq haQ
        (hasQuotedMatch_eq_false_of_clean _ _ hbQ) _ (le_refl _)
    rw [substPasses_data name rep _ ('{' :: (name.data ++ ['}', '}'])) hpat, step1,
      step2, step3id]
    exact String.ext (by rw [hrw])
  · -- the bare quoted form
    have hfrag3 : (a ++ String.mk (q :: (name.data ++ [q])) ++ b).data =
        a.data ++ q :: (name.data ++ q :: b.data) := by
      rw [String.data_append, String.data_append,
        show (String.mk (q :: (name.data ++ [q]))).data = q :: (name.data ++ [q]) from rfl]
      simp [List.append_assoc]
    have hnb3 : '{' ∉ (a ++ String.mk (q :: (name.data ++ [q])) ++ b).data := by
      rw [hfrag3]
      intro hm
      rcases List.mem_append.mp hm with h | h
      · exact haB h
      · rcases List.mem_cons.mp h with h | h
        · exact hqbrace h.symm
        · rcases List.mem_append.mp h with h | h
          · exact hnameB h
          · rcases List.mem_cons.mp h with h | h
            · exact hqbrace h.symm
            · exact hbB h
    have step1 : replLitF '{' ('{' :: (name.data ++ ['}', '}'])) rep.data
        (a ++ String.mk (q :: (name.data ++ [q])) ++ b).data.length
        (a ++ String.mk (q :: (name.data ++ [q])) ++ b).data =
        (a ++ String.mk (q :: (name.data ++ [q])) ++ b).data :=
      replLitF_id _ _ _ _ (hasLitMatch_eq_false _ _ _ hnb3) _
    have hD1 : hasQuotedMatch (name ++ ".png").data
        (a ++ String.mk (q :: (name.data ++ [q])) ++ b).data = false := by
      rw [hfrag3]
      rw [hasQuotedMatch_append_clean _ _ _ haQ]
      rw [show hasQuotedMatch (name ++ ".png").data (q :: (name.data ++ q :: b.data)) =
        ((isQuoteCh q && ((name ++ ".png").data ++ [q]).isPrefixOf (name.data ++ q :: b.data)) ||
          hasQuotedMatch (name ++ ".png").data (name.data ++ q :: b.data)) from rfl]
      have hpf : ((name ++ ".png").data ++ [q]).isPrefixOf (name.data ++ q :: b.data) = false := by
        rw [hmid, List.append_assoc, isPrefixOf_append_cancel]
        show (('.' == q) && ("png".data ++ [q]).isPrefixOf b.data) = false
        rw [hdotq]
        rfl
      rw [hpf]
      rw [hasQuotedMatch_append_clean _ _ _ hnameQ]
      rw [show hasQuotedMatch (name ++ ".png").data (q :: b.data) =
        ((isQuoteCh q && ((name ++ ".png").data ++ [q]).isPrefixOf b.data) ||
          hasQuotedMatch (name ++ ".png").data b.data) from rfl]
      rw [isPrefixOf_eq_false_of_quote_clean _ _ q hq hbQ]
      rw [hasQuotedMatch_eq_false_of_clean _ _ hbQ]
      simp
    have step2 : replQuotF (name ++ ".png").data rep.data
        (a ++ String.mk (q :: (name.data ++ [q])) ++ b).data.length
        (a ++ String.mk (q :: (name.data ++ [q])) ++ b).data =
        (a ++ String.mk (q :: (name.data ++ [q])) ++ b).data :=
      replQuotF_id _ _ _ hD1 _
    have step3 : replQuotF name.data rep.data
        (a ++ String.mk (q :: (name.data ++ [q])) ++ b).data.length
        (a ++ String.mk (q :: (name.data ++ [q])) ++ b).data =
        a.data ++ rep.data ++ b.data := by
      rw [hfrag3]
      exact replQuotF_boundary name.data rep.data a.data b.data q hq haQ
        (hasQuotedMatch_eq_false_of_clean _ _ hbQ) _ (le_refl _)
    rw [substPasses_data name rep _ ('{' :: (name.data ++ ['}', '}'])) hpat, step1,
      step2, step3]
    exact String.ext (by rw [hrw])

/-- C7: for every successfully generated asset name mapped to a URL, the
STAGE 2 substitution recognises each of the three literal forms — the
double-curly-brace form, a quoted `name.png`, and a quoted bare `name`
(either quote character) — and rewrites the occurrence as `url('<url>')` when
the fragment is the style fragment (`isCss = true`, as `applyAsset` wires the
three stored fragments) and as a quoted URL in the structure and behavior
fragments; the surrounding text is preserved.  The hypotheses say the
surroundings and the name are free of quote and brace characters and that
the replacement string does not itself form a new placeholder occurrence. -/
theorem substituteAsset_replaces_each_form (name url a b : String) (q : Char) (isCss : Bool)
    (hq : isQuoteCh q = true)
    (ha : cleanStr a = true) (hb : cleanStr b = true) (hname : cleanStr name = true)
    (hA : hasQuotedMatch (name ++ ".png").data
      (a ++ (if isCss then "url('" ++ url ++ "')" else "'" ++ url ++ "'") ++ b).data = false)
    (hB : hasQuotedMatch name.data
      (a ++ (if isCss then "url('" ++ url ++ "')" else "'" ++ url ++ "'") ++ b).data = false) :
    substituteAsset name url (a ++ ("\x7b\x7b" ++ name ++ "\x7d\x7d") ++ b) isCss =
      a ++ (if isCss then "url('" ++ url ++ "')" else "'" ++ url ++ "'") ++ b ∧
    substituteAsset name url
        (a ++ String.mk (q :: (name.data ++ ".png".data ++ [q])) ++ b) isCss =
      a ++ (if isCss then "url('" ++ url ++ "')" else "'" ++ url ++ "'") ++ b ∧
    substituteAsset name url (a ++ String.mk (q :: (name.data ++ [q])) ++ b) isCss =
      a ++ (if isCss then "url('" ++ url ++ "')" else "'" ++ url ++ "'") ++ b := by
  have hall : ∀ s : String, cleanStr s = true → ∀ c ∈ s.data, cleanChar c = true :=
    fun s hs => List.all_eq_true.mp (by simpa [cleanStr] using hs)
  unfold substituteAsset
  exact substPasses_boundary name _ a b q hq (hall a ha) (hall b hb) (hall name hname) hA hB

/-- Witness for C7 at concrete inputs: asset `ship` mapped to
`https://x/ship.png`; a bare quoted occurrence in a structure/behavior
context becomes a quoted URL, a curly occurrence in a style context becomes
`url('…')`, and a quoted `ship.png` occurrence is rewritten too. -/
theorem substituteAsset_replaces_each_form_witness :
    substituteAsset "ship" "https://x/ship.png" "<img src='ship'> " false =
      "<img src='https://x/ship.png'> " ∧
    substituteAsset "ship" "https://x/ship.png" "background: \x7b\x7bship\x7d\x7d;" true =
      "background: url('https://x/ship.png');" ∧
    substituteAsset "ship" "https://x/ship.png" "load(\"ship.png\") " false =
      "load('https://x/ship.png') " := by
  refine ⟨?_, ?_, ?_⟩
  · exact (substituteAsset_replaces_each_form "ship" "https://x/ship.png" "<img src=" "> "
      '\'' false (by decide) (by decide) (by decide) (by decide) (by decide) (by decide)).2.2
  · exact (substituteAsset_replaces_each_form "ship" "https://x/ship.png" "background: " ";"
      '\'' true (by decide) (by decide) (by decide) (by decide) (by decide) (by decide)).1
  · exact (substituteAsset_replaces_each_form "ship" "https://x/ship.png" "load(" ") "
      '"' false (by decide) (by decide) (by decide) (by decide) (by decide) (by decide)).2.1

end Hinow
